import Mathlib

/-!
Verification of the OJP response-parsing core (`src/ojp/parsers.py` and
`src/ojp/models.py`) of the runtobus-mcp repository.

Embedding conventions:
* Python strings are embedded as `String`; where the proofs need induction
  over string contents (the duration decoder) the decoder works on the
  underlying `List Char`, with Python string operations (`split`, `replace`,
  `in`, `startswith`) translated to list functions defined here.
* `datetime` instants are embedded as `Int` (seconds on a linear time line);
  `timedelta.total_seconds()` is then integer subtraction, and Python's
  `int(x / 60)` (truncation toward zero) is `Int.tdiv`.
* XML elements are embedded as records whose fields hold the text found by
  the corresponding xpath query in the source (`none` = element absent or
  its text is `None`; at every use site in the source an element whose text
  is `None` behaves like an absent element, because `float(None)` /
  `date_parser.parse(None)` raise and name lookups fall through on `None`).
* pydantic model construction is embedded as an `Option`-returning smart
  constructor (`mkTrip`, `mkLocation`, `mkCoordinates`): it yields `none`
  exactly when a declared field constraint is violated (a required
  `datetime` receiving `None`, a `Field(ge=..., le=...)` bound failing).
  `pydantic.ValidationError` is a subclass of `ValueError`, so it is caught
  by every `except ValueError` / `except Exception` in the source.
* `timestamp` fields (wall-clock creation time) are omitted.
-/

/-- Python truthiness of an optional string (`None` and `""` are falsy). -/
def pyTruthyStr : Option String → Bool
  | none => false
  | some s => !s.isEmpty

/-- Python truthiness of an optional int (`None` and `0` are falsy). -/
def pyTruthyInt : Option Int → Bool
  | none => false
  | some n => n != 0

/-- Python's `c in s` membership test on a string, over its characters. -/
def pyContains (c : Char) (s : List Char) : Bool :=
  s.any (· == c)

/-- Python's `str.split(sep)` for a one-character separator. -/
def splitOnChar (c : Char) : List Char → List (List Char)
  | [] => [[]]
  | x :: xs =>
    match splitOnChar c xs with
    | [] => if x == c then [[], []] else [[x]]
    | h :: t => if x == c then [] :: h :: t else (x :: h) :: t

/-- Python's `str.replace(old, "")` for a one-character pattern. -/
def removeAll (c : Char) (s : List Char) : List Char :=
  s.filter (· != c)

/-- Python's `str.strip()`-style whitespace removal performed by `int()` and
`float()` on both ends of their argument. -/
def stripWs (s : List Char) : List Char :=
  ((s.dropWhile Char.isWhitespace).reverse.dropWhile Char.isWhitespace).reverse

/-- Split a leading `+`/`-` sign off a literal: returns (isNegative, rest). -/
def signSplit : List Char → Bool × List Char
  | [] => (false, [])
  | c :: r =>
    if c == '+' then (false, r)
    else if c == '-' then (true, r)
    else (false, c :: r)

/-- Numeric value of a digit string. -/
def digitsVal (s : List Char) : Nat :=
  s.foldl (fun a c => a * 10 + (c.toNat - '0'.toNat)) 0

/-- Model of Python's `int(str)`: optional surrounding whitespace, optional
sign, then a non-empty run of decimal digits; anything else raises
`ValueError`, embedded as `none`. (Underscore separators and non-ASCII
digits, which CPython also accepts, are outside the inputs this program
meets and are not modelled.) -/
def pythonInt (s : List Char) : Option Int :=
  let t := stripWs s
  let p := signSplit t
  if !p.2.isEmpty && p.2.all Char.isDigit then
    some (if p.1 then -(digitsVal p.2 : Int) else (digitsVal p.2 : Int))
  else none

/-- Model of Python's `float(str)` restricted to plain decimal literals:
optional whitespace and sign, digits with an optional decimal point
(`"1"`, `"1.5"`, `".5"`, `"1."`). Exponent, `inf`/`nan` forms are not
modelled. Values are exact rationals. -/
def pyFloatChars (s : List Char) : Option ℚ :=
  let t := stripWs s
  let p := signSplit t
  match splitOnChar '.' p.2 with
  | [ip] =>
    if !ip.isEmpty && ip.all Char.isDigit then
      some ((if p.1 then -1 else 1) * (digitsVal ip : ℚ))
    else none
  | [ip, fp] =>
    if !(ip ++ fp).isEmpty && (ip ++ fp).all Char.isDigit then
      some ((if p.1 then -1 else 1) *
        ((digitsVal ip : ℚ) + (digitsVal fp : ℚ) / (10 ^ fp.length)))
    else none
  | _ => none

/-- `float()` applied to the text of an XML element. -/
def pyFloat (s : String) : Option ℚ :=
  pyFloatChars s.data

/-- The hours block of `OJPParser._parse_iso_duration` (parsers.py lines
386-391): on the string after the `PT` marker, if it mentions `H`, split on
`H`, read the hours with `int()` (`ValueError` = `none`), convert to
minutes, and continue with `parts[1] if len(parts) > 1 else ''`; otherwise
contribute zero minutes and continue with the string unchanged. -/
def durStageH (rest : List Char) : Option (Int × List Char) :=
  if pyContains 'H' rest then
    let parts := splitOnChar 'H' rest
    match pythonInt (parts.headD []) with
    | some hours => some (hours * 60, (parts.drop 1).headD [])
    | none => none
  else some (0, rest)

/-- The minutes block of `OJPParser._parse_iso_duration` (parsers.py lines
393-399): if the remaining string mentions `M`, delete every `M` and, when
something is left, add its `int()` value (`ValueError` = `none`). -/
def durStageM (acc : Int) (rest2 : List Char) : Option Int :=
  if pyContains 'M' rest2 then
    let minutesPart := removeAll 'M' rest2
    if minutesPart.isEmpty then some acc
    else
      match pythonInt minutesPart with
      | some m => some (acc + m)
      | none => none
  else some acc

/-- `OJPParser._parse_iso_duration` (parsers.py lines 375-402), translated
statement by statement over the character list of the duration string:
the `PT` prefix check, then the hours block, then the minutes block.
`none` embeds the `except (ValueError, IndexError): return None` path. -/
def parse_iso_duration (s : List Char) : Option Int :=
  if s.take 2 = ['P', 'T'] then
    match durStageH (s.drop 2) with
    | some (acc, rest2) => durStageM acc rest2
    | none => none
  else none

/-! ## Data model (src/ojp/models.py) -/

/-- `Coordinates` (models.py lines 7-10), bounds enforced by `mkCoordinates`. -/
structure Coordinates where
  longitude : ℚ
  latitude : ℚ
deriving Repr, DecidableEq

/-- pydantic construction of `Coordinates`: `Field(ge=-180, le=180)` and
`Field(ge=-90, le=90)`; a violated bound raises `ValidationError` (`none`). -/
def mkCoordinates (lon lat : ℚ) : Option Coordinates :=
  if -180 ≤ lon ∧ lon ≤ 180 ∧ -90 ≤ lat ∧ lat ≤ 90 then
    some ⟨lon, lat⟩
  else none

/-- `Location` (models.py lines 12-18). `type` is the `Literal` field, always
`"stop"` at the construction sites modelled here. -/
structure Location where
  id : Option String := none
  name : String
  coordinates : Option Coordinates := none
  type : String := "stop"
  probability : Option ℚ := none
deriving Repr, DecidableEq

/-- pydantic construction of `Location`: `probability` carries
`Field(None, ge=0, le=1)`, so an out-of-range value raises
`ValidationError` (`none`). -/
def mkLocation (id : Option String) (name : String)
    (coordinates : Option Coordinates) (type : String)
    (probability : Option ℚ) : Option Location :=
  match probability with
  | some p =>
    if 0 ≤ p ∧ p ≤ 1 then
      some { id := id, name := name, coordinates := coordinates,
             type := type, probability := some p }
    else none
  | none =>
    some { id := id, name := name, coordinates := coordinates,
           type := type, probability := none }

/-- `Leg` (models.py lines 40-50); instants are `Int` seconds. -/
structure Leg where
  mode : String
  origin : Location
  destination : Location
  departure_time : Option Int := none
  arrival_time : Option Int := none
  duration_minutes : Option Int := none
  distance_meters : Option Int := none
  line_name : Option String := none
  direction : Option String := none
deriving Repr, DecidableEq

/-- `Trip` (models.py lines 52-60). `departure_time` and `arrival_time` are
declared `datetime`, not `Optional[datetime]`: they are required, which
`mkTrip` enforces. `total_duration_minutes` and `transfers` are plain `int`
fields with no declared bounds. -/
structure Trip where
  legs : List Leg
  total_duration_minutes : Int
  departure_time : Int
  arrival_time : Int
  transfers : Int
deriving Repr, DecidableEq

/-- pydantic construction of `Trip`: passing `None` for the required
`departure_time` / `arrival_time` raises `ValidationError` (`none`), which
`_parse_trip`'s `except Exception` turns into a discarded trip. -/
def mkTrip (legs : List Leg) (total_duration_minutes : Int)
    (departure_time arrival_time : Option Int) (transfers : Int) :
    Option Trip :=
  match departure_time, arrival_time with
  | some d, some a =>
    some { legs := legs, total_duration_minutes := total_duration_minutes,
           departure_time := d, arrival_time := a, transfers := transfers }
  | _, _ => none

/-- `TripResponse` (models.py lines 62-71); the wall-clock `timestamp` field
is omitted. -/
structure TripResponse where
  success : Bool
  error_message : Option String := none
  trips : List Trip := []
deriving Repr, DecidableEq

/-- `LocationResponse` (models.py lines 74-76). -/
structure LocationResponse where
  success : Bool
  error_message : Option String := none
  locations : List Location := []
deriving Repr, DecidableEq

/-! ## Trip assembly (`OJPParser._parse_trip`, parsers.py lines 62-127)

`_parse_trip` first decodes the trip element's legs (embedded below as
`parse_trip` over a result-element record) and then aggregates the decoded
legs; the aggregation (lines 75-124) is `assembleTrip`. -/

/-- Lines 75-124 of parsers.py: fold a list of decoded legs into a `Trip`.
`none` embeds both `if not legs: return None` and the
`except Exception: return None` wrapper that catches the
`ValidationError` raised by `Trip(...)` when a required instant is `None`.
Python truthiness notes: a `datetime` is always truthy, so the
`if leg.departure_time:` tests are `Option.isSome` tests; `duration_minutes`
is an `int`, so `0` is falsy (`pyTruthyInt`). `int(x / 60)` truncates toward
zero, i.e. `Int.tdiv`. -/
def assembleTrip : List Leg → Option Trip
  | [] => none
  | l0 :: rest =>
    let legs := l0 :: rest
    let departure_time := legs.findSome? (fun leg => leg.departure_time)
    let arrival_time := legs.reverse.findSome? (fun leg => leg.arrival_time)
    let total_duration : Int :=
      match departure_time, arrival_time with
      | some d, some a => Int.tdiv (a - d) 60
      | _, _ =>
        legs.foldl
          (fun acc leg =>
            if pyTruthyInt leg.duration_minutes then
              acc + leg.duration_minutes.getD 0
            else
              match leg.departure_time, leg.arrival_time with
              | some d, some a => acc + Int.tdiv (a - d) 60
              | _, _ => acc)
          0
    let public_transport_legs :=
      legs.filter (fun leg => !(leg.mode == "walk" || leg.mode == "walking"))
    let transfers : Int := max 0 ((public_transport_legs.length : Int) - 1)
    let departure_time' :=
      match departure_time with
      | some d => some d
      | none => l0.departure_time
    let arrival_time' :=
      match arrival_time with
      | some a => some a
      | none => (legs.getLast?).bind (fun leg => leg.arrival_time)
    mkTrip legs total_duration departure_time' arrival_time' transfers

/-! ## Timed-leg mode normalization (parsers.py lines 189-254) -/

/-- Model of Python's `str.lower()` (ASCII case folding, which is all the
vendor vocabulary uses), character by character. -/
def pyLower (s : String) : String :=
  ⟨s.data.map Char.toLower⟩

/-- The mode computation of `_parse_timed_leg` (lines 193 and 211-254), as a
function of the texts of `Mode/PtMode`, `Mode/siri:RailSubmode` and
`Mode/siri:BusSubmode`. The default is `"public_transport"`; a present,
truthy `PtMode` is lower-cased; rail and bus submodes refine it only when
their element is present with truthy text. The final comparison
`pt_mode.lower() == "cableCar"` in the source can never succeed (the left
side is lower-case), and is reproduced as written. -/
def normalizeMode (ptMode railSub busSub : Option String) : String :=
  match ptMode with
  | none => "public_transport"
  | some pt =>
    if pt.isEmpty then "public_transport"
    else
      let mode := pyLower pt
      if pyLower pt == "rail" then
        match railSub with
        | some sub =>
          if !sub.isEmpty then
            if sub == "regionalRail" then "regional_train"
            else if sub == "suburbanRailway" then "s_bahn"
            else if sub == "interregionalRail" then "intercity"
            else if sub == "highSpeedRail" then "high_speed_rail"
            else "train"
          else mode
        | none => mode
      else if pyLower pt == "bus" then
        match busSub with
        | some sub =>
          if !sub.isEmpty then
            if sub == "localBus" then "bus"
            else if sub == "expressBus" then "express_bus"
            else if sub == "nightBus" then "night_bus"
            else "bus"
          else mode
        | none => mode
      else if pyLower pt == "tram" then "tram"
      else if pyLower pt == "metro" then "metro"
      else if pyLower pt == "funicular" then "funicular"
      else if pyLower pt == "cableCar" then "cable_car"
      else mode

/-! ## Leg element records and leg decoding (parsers.py lines 129-373)

Each record field holds the text found by the matching xpath query of the
source function. -/

/-- Model of `dateutil.parser.parse` applied to an instant string. Instants
are modelled as integer seconds, and an instant string is modelled by its
decimal representation; an unrecognized string raises (`none`). No claim
under verification depends on the concrete set of strings `dateutil`
accepts, only on parse success or failure. -/
def dateParse (s : String) : Option Int :=
  pythonInt s.data

/-- An `ojp:LegBoard` / `ojp:LegAlight` element of a timed leg:
`StopPointName/Text`, `siri:StopPointRef`, and the
`ServiceDeparture`-or-`ServiceArrival` pair `EstimatedTime` /
`TimetabledTime` (lines 155-187, 404-419). -/
structure BoardAlightElem where
  stopPointNameText : Option String := none
  stopPointRefText : Option String := none
  estimatedTimeText : Option String := none
  timetabledTimeText : Option String := none

/-- The `ojp:Service` element of a timed leg: `PublishedServiceName/Text`,
`PublicCode`, `DestinationText/Text`, `Mode/PtMode`, `Mode/siri:RailSubmode`,
`Mode/siri:BusSubmode` (lines 195-254). -/
structure ServiceElem where
  publishedServiceNameText : Option String := none
  publicCodeText : Option String := none
  destinationTextText : Option String := none
  ptModeText : Option String := none
  railSubmodeText : Option String := none
  busSubmodeText : Option String := none

/-- An `ojp:TimedLeg` element (lines 150-267). -/
structure TimedLegElem where
  board : Option BoardAlightElem := none
  alight : Option BoardAlightElem := none
  service : Option ServiceElem := none

/-- An `ojp:LegStart` / `ojp:LegEnd` element of a transfer leg:
`Name/Text`, the alternative `n/Text` shape, and `siri:StopPointRef`
(lines 355-373). -/
structure TransferLocElem where
  nameText : Option String := none
  nText : Option String := none
  stopPointRefText : Option String := none

/-- An `ojp:TransferLeg` element: `LegStart`, `LegEnd`, `TransferType`,
`Duration` (lines 269-353). -/
structure TransferLegElem where
  legStart : Option TransferLocElem := none
  legEnd : Option TransferLocElem := none
  transferTypeText : Option String := none
  durationText : Option String := none

/-- An `ojp:ContinuousLeg` element: its nested `TransferLeg` and its own
`Duration` query result (lines 269-312). -/
structure ContinuousLegElem where
  transferLeg : Option TransferLegElem := none
  durationText : Option String := none

/-- An `ojp:Leg` element as classified by `_parse_leg` (lines 129-148): the
source tests for a `TimedLeg`, then a `ContinuousLeg`, then a direct
`TransferLeg` child, in that priority order; the inductive keeps the variant
that the first successful test selects. `unrecognized` is a leg element
matching none of the three shapes. A transfer leg keeps the leg-level
`Duration` query result alongside (line 334). -/
inductive LegElem where
  | timed (t : TimedLegElem)
  | continuous (c : ContinuousLegElem)
  | transfer (legDurationText : Option String) (tr : TransferLegElem)
  | unrecognized

/-- `OJPParser._parse_leg_board_alight` (lines 404-419): name from
`StopPointName/Text` with `"Unknown"` fallback, id from `siri:StopPointRef`.
(A present name element whose text is `None` makes `Location(name=None)`
raise; the local `except` then returns the `"Unknown"` location — the same
outcome as an absent element, so the collapsed `Option String` field is
faithful.) -/
def parse_leg_board_alight (e : BoardAlightElem) : Location :=
  { name := e.stopPointNameText.getD "Unknown",
    id := e.stopPointRefText,
    probability := none }

/-- `OJPParser._parse_transfer_location` (lines 355-373): name from
`Name/Text`, falling back to the `n/Text` shape, then `"Unknown"`; id from
`siri:StopPointRef`. -/
def parse_transfer_location (e : TransferLocElem) : Location :=
  { name :=
      match e.nameText with
      | some n => n
      | none => e.nText.getD "Unknown",
    id := e.stopPointRefText,
    probability := none }

/-- `OJPParser._parse_timed_leg` (lines 150-267): requires both board and
alight elements; instants via `EstimatedTime` falling back to
`TimetabledTime`, each parsed under a local `try` whose failure leaves the
instant absent; line name via `PublishedServiceName/Text` falling back
(on falsiness) to `PublicCode`; mode via `normalizeMode`. -/
def parse_timed_leg (e : TimedLegElem) : Option Leg :=
  match e.board, e.alight with
  | some b, some al =>
    let origin := parse_leg_board_alight b
    let destination := parse_leg_board_alight al
    let departure_time :=
      (match b.estimatedTimeText with
       | some t => some t
       | none => b.timetabledTimeText).bind dateParse
    let arrival_time :=
      (match al.estimatedTimeText with
       | some t => some t
       | none => al.timetabledTimeText).bind dateParse
    let line_name :=
      match e.service with
      | some s =>
        if pyTruthyStr s.publishedServiceNameText then
          s.publishedServiceNameText
        else s.publicCodeText
      | none => none
    let direction := e.service.bind (fun s => s.destinationTextText)
    let mode :=
      match e.service with
      | some s => normalizeMode s.ptModeText s.railSubmodeText s.busSubmodeText
      | none => "public_transport"
    some { mode := mode, origin := origin, destination := destination,
           departure_time := departure_time, arrival_time := arrival_time,
           line_name := line_name, direction := direction }
  | _, _ => none

/-- The shared body of transfer-style leg decoding (lines 278-309 and
318-350): endpoints via `parse_transfer_location` with the `"Unknown"`
placeholder when absent; mode from `TransferType` (lower-cased when truthy,
default `"walking"`); duration from the leg-level `Duration` text query,
falling back to the `TransferLeg`-level one, decoded by
`parse_iso_duration` when truthy. -/
def decodeTransferBody (legDurationText : Option String)
    (tr : TransferLegElem) : Leg :=
  let origin :=
    match tr.legStart with
    | some l => parse_transfer_location l
    | none => { name := "Unknown", probability := none }
  let destination :=
    match tr.legEnd with
    | some l => parse_transfer_location l
    | none => { name := "Unknown", probability := none }
  let mode :=
    if pyTruthyStr tr.transferTypeText then
      pyLower (tr.transferTypeText.getD "")
    else "walking"
  let durationText :=
    match legDurationText with
    | some t => some t
    | none => tr.durationText
  let duration_minutes :=
    if pyTruthyStr durationText then
      parse_iso_duration (durationText.getD "").data
    else none
  { mode := mode, origin := origin, destination := destination,
    duration_minutes := duration_minutes }

/-- `OJPParser._parse_continuous_leg` (lines 269-312): requires the nested
`TransferLeg`; otherwise the shared transfer-body decoding. -/
def parse_continuous_leg (c : ContinuousLegElem) : Option Leg :=
  match c.transferLeg with
  | some tr => some (decodeTransferBody c.durationText tr)
  | none => none

/-- `OJPParser._parse_transfer_leg` (lines 314-353): the shared
transfer-body decoding on a `TransferLeg` that is a direct child of the leg
element, with the leg-level `Duration` taking precedence. -/
def parse_transfer_leg (legDurationText : Option String)
    (tr : TransferLegElem) : Option Leg :=
  some (decodeTransferBody legDurationText tr)

/-- `OJPParser._parse_leg` (lines 129-148): dispatch on the classified
variant; an unrecognized shape decodes to nothing. -/
def parse_leg : LegElem → Option Leg
  | .timed t => parse_timed_leg t
  | .continuous c => parse_continuous_leg c
  | .transfer d tr => parse_transfer_leg d tr
  | .unrecognized => none

/-! ## Trip results and the trip entry point (parsers.py lines 22-40, 62-76) -/

/-- An `ojp:TripResult` element: the list of its `ojp:Leg` descendants
(line 69). -/
structure TripResultElem where
  legs : List LegElem

/-- `OJPParser._parse_trip` (lines 62-127): decode each leg, keep the
successes, then aggregate with `assembleTrip` (the `if not legs` guard and
the aggregation live in `assembleTrip`). -/
def parse_trip (t : TripResultElem) : Option Trip :=
  assembleTrip (t.legs.filterMap parse_leg)

/-- The outcome of `etree.fromstring` plus the `//ojp:TripResult` query on a
trip-response document: either the parse raised (malformed document, with
the exception's message) or it produced a list of trip-result elements. -/
inductive TripDocument where
  | malformed (err : String)
  | parsed (results : List TripResultElem)

/-- `OJPParser.parse_trip_response` (lines 22-40): on a well-formed document
collect the decodable trips into a `success=True` envelope; on a parse
failure return `success=False` with the formatted error message and the
default empty trip list. -/
def parse_trip_response : TripDocument → TripResponse
  | .malformed e =>
    { success := false,
      error_message := some ("Failed to parse trip response: " ++ e),
      trips := [] }
  | .parsed results =>
    { success := true,
      error_message := none,
      trips := results.filterMap parse_trip }

/-! ## Place results and the location entry point (parsers.py lines 42-60,
450-513) -/

/-- The `ojp:GeoPosition` element of a place: `siri:Longitude`,
`siri:Latitude` (lines 475-487). -/
structure GeoPositionElem where
  longitudeText : Option String := none
  latitudeText : Option String := none

/-- An `ojp:Place` element: `Name/Text`, the
`StopPlace/StopPlaceName/Text` fallback, `GeoPosition`,
`StopPlace/StopPlaceRef` (lines 454-493). -/
structure PlaceElem where
  nameText : Option String := none
  stopPlaceNameText : Option String := none
  geoPosition : Option GeoPositionElem := none
  stopPlaceRefText : Option String := none

/-- An `ojp:PlaceResult` element: its `Place` child and the text of its
`Probability` child (lines 455, 497). -/
structure PlaceResultElem where
  place : Option PlaceElem := none
  probabilityText : Option String := none

/-- Name resolution of `_parse_place_result` (lines 462-471): `Name/Text`,
falling back on falsiness to `StopPlace/StopPlaceName/Text`; a name that is
still falsy yields no location. -/
def placeName (pl : PlaceElem) : Option String :=
  let name0 := pl.nameText
  let name1 := if pyTruthyStr name0 then name0 else pl.stopPlaceNameText
  if pyTruthyStr name1 then name1 else none

/-- Coordinate extraction of `_parse_place_result` (lines 474-487): both
texts must be present and `float`-parseable; the pydantic range check of
`Coordinates` raises `ValidationError ⊂ ValueError`, caught by the inner
`except (ValueError, TypeError)`, leaving the coordinates absent. -/
def placeCoords (pl : PlaceElem) : Option Coordinates :=
  match pl.geoPosition with
  | some g =>
    match g.longitudeText, g.latitudeText with
    | some lonT, some latT =>
      match pyFloat lonT, pyFloat latT with
      | some lon, some lat => mkCoordinates lon lat
      | _, _ => none
    | _, _ => none
  | none => none

/-- `OJPParser._parse_place_result` (lines 450-513): requires a `Place`
child and a truthy name; id, coordinates and probability degrade to absent
on their local failures; the final `Location(...)` construction validates
the probability range, and its `ValidationError` reaches only the outer
`except Exception`, which drops the whole fragment. -/
def parse_place_result (pr : PlaceResultElem) : Option Location :=
  match pr.place with
  | none => none
  | some pl =>
    match placeName pl with
    | none => none
    | some name =>
      let coordinates := placeCoords pl
      let location_id := pl.stopPlaceRefText
      let probability := pr.probabilityText.bind pyFloat
      mkLocation location_id name coordinates "stop" probability

/-- The outcome of `etree.fromstring` plus the `//ojp:PlaceResult` query on
a location-response document. -/
inductive LocationDocument where
  | malformed (err : String)
  | parsed (results : List PlaceResultElem)

/-- `OJPParser.parse_location_response` (lines 42-60). -/
def parse_location_response : LocationDocument → LocationResponse
  | .malformed e =>
    { success := false,
      error_message := some ("Failed to parse location response: " ++ e),
      locations := [] }
  | .parsed results =>
    { success := true,
      error_message := none,
      locations := results.filterMap parse_place_result }

/-! ## Supporting lemmas on the string model -/

theorem dropWhile_eq_self_of_all_false {α : Type} (p : α → Bool) :
    ∀ s : List α, (∀ x ∈ s, p x = false) → s.dropWhile p = s
  | [], _ => rfl
  | x :: xs, h => by
    have hx := h x (List.mem_cons_self x xs)
    simp [List.dropWhile, hx]

theorem isWhitespace_eq_false_of_isDigit {c : Char} (h : c.isDigit = true) :
    c.isWhitespace = false := by
  rcases hb : c.isWhitespace with _ | _
  · rfl
  · exfalso
    simp only [Char.isWhitespace, Bool.or_eq_true, decide_eq_true_eq] at hb
    rcases hb with ((h1 | h1) | h1) | h1 <;> (subst h1; exact absurd h (by decide))

theorem beq_eq_false_of_isDigit {c q : Char} (h : c.isDigit = true)
    (hq : q.isDigit = false) : (c == q) = false := by
  rcases hb : c == q with _ | _
  · rfl
  · have hcq : c = q := eq_of_beq hb
    subst hcq
    rw [h] at hq
    cases hq

theorem stripWs_all_digits {s : List Char} (h : s.all Char.isDigit = true) :
    stripWs s = s := by
  have hws : ∀ x ∈ s, x.isWhitespace = false := fun x hx =>
    isWhitespace_eq_false_of_isDigit (List.all_eq_true.mp h x hx)
  have hws' : ∀ x ∈ s.reverse, x.isWhitespace = false := fun x hx =>
    hws x (List.mem_reverse.mp hx)
  unfold stripWs
  rw [dropWhile_eq_self_of_all_false _ s hws,
      dropWhile_eq_self_of_all_false _ s.reverse hws', List.reverse_reverse]

theorem signSplit_all_digits {s : List Char} (h : s.all Char.isDigit = true) :
    signSplit s = (false, s) := by
  cases s with
  | nil => rfl
  | cons c cs =>
    have hc : c.isDigit = true := by
      have := List.all_eq_true.mp h c (List.mem_cons_self c cs)
      simpa using this
    have h1 : (c == '+') = false := beq_eq_false_of_isDigit hc (by decide)
    have h2 : (c == '-') = false := beq_eq_false_of_isDigit hc (by decide)
    simp [signSplit, h1, h2]

theorem pythonInt_all_digits {s : List Char} (hne : s ≠ [])
    (h : s.all Char.isDigit = true) :
    pythonInt s = some ((digitsVal s : Int)) := by
  unfold pythonInt
  simp only [stripWs_all_digits h, signSplit_all_digits h]
  simp [h, hne]

theorem pyContains_append (c : Char) (a b : List Char) :
    pyContains c (a ++ b) = (pyContains c a || pyContains c b) := by
  simp [pyContains]

theorem pyContains_cons (c x : Char) (xs : List Char) :
    pyContains c (x :: xs) = ((x == c) || pyContains c xs) := by
  simp [pyContains]

theorem pyContains_all_digits {c : Char} {s : List Char}
    (hc : c.isDigit = false) (h : s.all Char.isDigit = true) :
    pyContains c s = false := by
  rcases hb : pyContains c s with _ | _
  · rfl
  · exfalso
    simp only [pyContains, List.any_eq_true] at hb
    obtain ⟨x, hx, hxc⟩ := hb
    have hxd : x.isDigit = true := List.all_eq_true.mp h x hx
    rw [beq_eq_false_of_isDigit hxd hc] at hxc
    cases hxc

theorem splitOnChar_ne_nil (c : Char) (s : List Char) :
    splitOnChar c s ≠ [] := by
  cases s with
  | nil => simp [splitOnChar]
  | cons x xs =>
    unfold splitOnChar
    rcases splitOnChar c xs with _ | ⟨h1, t⟩ <;>
      rcases x == c with _ | _ <;> simp

theorem splitOnChar_of_not_contains {c : Char} {s : List Char}
    (h : pyContains c s = false) : splitOnChar c s = [s] := by
  induction s with
  | nil => rfl
  | cons x xs ih =>
    rw [pyContains_cons] at h
    have hx : (x == c) = false := by
      rcases hb : x == c with _ | _
      · rfl
      · rw [hb] at h; simp at h
    have hxs : pyContains c xs = false := by
      rw [hx] at h; simpa using h
    simp [splitOnChar, ih hxs, hx]

theorem splitOnChar_append_cons {c : Char} {a : List Char}
    (h : pyContains c a = false) (b : List Char) :
    splitOnChar c (a ++ c :: b) = a :: splitOnChar c b := by
  induction a with
  | nil =>
    have hne := splitOnChar_ne_nil c b
    rcases hs : splitOnChar c b with _ | ⟨h1, t⟩
    · exact absurd hs hne
    · simp [splitOnChar, hs]
  | cons x a' ih =>
    rw [pyContains_cons] at h
    have hx : (x == c) = false := by
      rcases hb : x == c with _ | _
      · rfl
      · rw [hb] at h; simp at h
    have ha' : pyContains c a' = false := by
      rw [hx] at h; simpa using h
    have hne := splitOnChar_ne_nil c (a' ++ c :: b)
    simp [splitOnChar, ih ha', hx]

theorem removeAll_append (c : Char) (a b : List Char) :
    removeAll c (a ++ b) = removeAll c a ++ removeAll c b := by
  simp [removeAll]

theorem removeAll_of_not_contains {c : Char} {s : List Char}
    (h : pyContains c s = false) : removeAll c s = s := by
  induction s with
  | nil => rfl
  | cons x xs ih =>
    rw [pyContains_cons] at h
    have hx : (x == c) = false := by
      rcases hb : x == c with _ | _
      · rfl
      · rw [hb] at h; simp at h
    have hxs : pyContains c xs = false := by
      rw [hx] at h; simpa using h
    have hxne : (x != c) = true := by simp [bne, hx]
    simp only [removeAll, List.filter_cons, hxne, if_true]
    have ihx := ih hxs
    simp only [removeAll] at ihx
    rw [ihx]

theorem durStageH_split {hd tl : List Char} (hne : hd ≠ [])
    (hdig : hd.all Char.isDigit = true) (htl : pyContains 'H' tl = false) :
    durStageH (hd ++ 'H' :: tl) = some ((digitsVal hd : Int) * 60, tl) := by
  have hhd : pyContains 'H' hd = false :=
    pyContains_all_digits (by decide) hdig
  have hcont : pyContains 'H' (hd ++ 'H' :: tl) = true := by
    rw [pyContains_append, pyContains_cons]
    simp
  have hsplit : splitOnChar 'H' (hd ++ 'H' :: tl) = hd :: splitOnChar 'H' tl :=
    splitOnChar_append_cons hhd tl
  have htl' : splitOnChar 'H' tl = [tl] := splitOnChar_of_not_contains htl
  unfold durStageH
  rw [hcont]
  simp only [if_true, hsplit, htl', List.headD_cons, List.drop_succ_cons,
    List.drop_zero]
  rw [pythonInt_all_digits hne hdig]

theorem durStageH_no_h {rest : List Char} (h : pyContains 'H' rest = false) :
    durStageH rest = some (0, rest) := by
  unfold durStageH
  rw [h]
  simp

theorem durStageM_split {md : List Char} (acc : Int) (hne : md ≠ [])
    (hdig : md.all Char.isDigit = true) :
    durStageM acc (md ++ ['M']) = some (acc + (digitsVal md : Int)) := by
  have hmd : pyContains 'M' md = false :=
    pyContains_all_digits (by decide) hdig
  have hcont : pyContains 'M' (md ++ ['M']) = true := by
    rw [pyContains_append, pyContains_cons]
    simp
  have hrem : removeAll 'M' (md ++ ['M']) = md := by
    rw [removeAll_append, removeAll_of_not_contains hmd]
    simp [removeAll]
  unfold durStageM
  rw [hcont]
  simp only [if_true, hrem]
  have hemp : md.isEmpty = false := by
    cases md with
    | nil => exact absurd rfl hne
    | cons x xs => rfl
  rw [hemp]
  simp only [Bool.false_eq_true, if_false]
  rw [pythonInt_all_digits hne hdig]

theorem durStageM_no_m {rest2 : List Char} (acc : Int)
    (h : pyContains 'M' rest2 = false) : durStageM acc rest2 = some acc := by
  unfold durStageM
  rw [h]
  simp

/-! ## C2 -/

/-- C2: for every duration string of the shape `PT` followed by an integer
hour component and/or an integer minute component (digit strings, at least
one component present), the duration decoder returns exactly
`hours*60 + minutes`; a string that does not begin with `PT`, or whose hour
or minute component fails integer parsing, yields `none` (no duration)
rather than an error. -/
theorem C2_duration_decoder (hd md : List Char) (hne : hd ≠ [])
    (mne : md ≠ []) (hdig : hd.all Char.isDigit = true)
    (mdig : md.all Char.isDigit = true) :
    parse_iso_duration ('P' :: 'T' :: (hd ++ 'H' :: (md ++ ['M'])))
        = some ((digitsVal hd : Int) * 60 + (digitsVal md : Int))
    ∧ parse_iso_duration ('P' :: 'T' :: (hd ++ ['H']))
        = some ((digitsVal hd : Int) * 60)
    ∧ parse_iso_duration ('P' :: 'T' :: (md ++ ['M']))
        = some ((digitsVal md : Int))
    ∧ (∀ s : List Char, s.take 2 ≠ ['P', 'T'] → parse_iso_duration s = none)
    ∧ (∀ s : List Char, s.take 2 = ['P', 'T'] →
        pyContains 'H' (s.drop 2) = true →
        pythonInt ((splitOnChar 'H' (s.drop 2)).headD []) = none →
        parse_iso_duration s = none)
    ∧ (∀ (s : List Char) (acc : Int) (rest2 : List Char),
        s.take 2 = ['P', 'T'] →
        durStageH (s.drop 2) = some (acc, rest2) →
        pyContains 'M' rest2 = true →
        (removeAll 'M' rest2).isEmpty = false →
        pythonInt (removeAll 'M' rest2) = none →
        parse_iso_duration s = none) := by
  have hmH : pyContains 'H' (md ++ ['M']) = false := by
    rw [pyContains_append, pyContains_cons,
        pyContains_all_digits (by decide) mdig]
    decide
  refine ⟨?_, ?_, ?_, ?_, ?_, ?_⟩
  · unfold parse_iso_duration
    have hpt : List.take 2 ('P' :: 'T' :: (hd ++ 'H' :: (md ++ ['M'])))
        = ['P', 'T'] := rfl
    rw [if_pos hpt]
    show (match durStageH
            (List.drop 2 ('P' :: 'T' :: (hd ++ 'H' :: (md ++ ['M'])))) with
          | some (acc, rest2) => durStageM acc rest2
          | none => none) = _
    rw [show List.drop 2 ('P' :: 'T' :: (hd ++ 'H' :: (md ++ ['M'])))
          = hd ++ 'H' :: (md ++ ['M']) from rfl]
    rw [durStageH_split hne hdig hmH]
    exact durStageM_split _ mne mdig
  · unfold parse_iso_duration
    have hpt : List.take 2 ('P' :: 'T' :: (hd ++ ['H'])) = ['P', 'T'] := rfl
    rw [if_pos hpt]
    show (match durStageH (List.drop 2 ('P' :: 'T' :: (hd ++ ['H']))) with
          | some (acc, rest2) => durStageM acc rest2
          | none => none) = _
    rw [show List.drop 2 ('P' :: 'T' :: (hd ++ ['H']))
          = hd ++ 'H' :: ([] : List Char) from rfl]
    rw [durStageH_split hne hdig (by decide)]
    exact durStageM_no_m _ (by decide)
  · unfold parse_iso_duration
    have hpt : List.take 2 ('P' :: 'T' :: (md ++ ['M'])) = ['P', 'T'] := rfl
    rw [if_pos hpt]
    show (match durStageH (List.drop 2 ('P' :: 'T' :: (md ++ ['M']))) with
          | some (acc, rest2) => durStageM acc rest2
          | none => none) = _
    rw [show List.drop 2 ('P' :: 'T' :: (md ++ ['M'])) = md ++ ['M'] from rfl]
    rw [durStageH_no_h hmH]
    have h0 := durStageM_split 0 mne mdig
    rw [zero_add] at h0
    exact h0
  · intro s hs
    unfold parse_iso_duration
    rw [if_neg hs]
  · intro s hs hH hint
    unfold parse_iso_duration
    rw [if_pos hs]
    have : durStageH (s.drop 2) = none := by
      unfold durStageH
      rw [hH]
      simp only [if_true, hint]
    rw [this]
  · intro s acc rest2 hs hstage hM hrem hint
    unfold parse_iso_duration
    rw [if_pos hs, hstage]
    show durStageM acc rest2 = none
    unfold durStageM
    rw [hM]
    simp only [if_true, hrem, Bool.false_eq_true, if_false, hint]

/-- C2 witness: the decoder at the spec's own examples, through
`C2_duration_decoder`. -/
theorem C2_duration_decoder_witness :
    parse_iso_duration "PT1H30M".data = some 90
    ∧ parse_iso_duration "PT2H".data = some 120
    ∧ parse_iso_duration "PT6M".data = some 6 := by
  refine ⟨?_, ?_, ?_⟩
  · have h := (C2_duration_decoder ['1'] ['3', '0'] (by decide) (by decide)
      (by decide) (by decide)).1
    have e1 : 'P' :: 'T' :: (['1'] ++ 'H' :: (['3', '0'] ++ ['M']))
        = "PT1H30M".data := by decide
    have e2 : ((digitsVal ['1'] : Int) * 60 + (digitsVal ['3', '0'] : Int))
        = 90 := by decide
    rw [e1, e2] at h
    exact h
  · have h := (C2_duration_decoder ['2'] ['9'] (by decide) (by decide)
      (by decide) (by decide)).2.1
    have e1 : 'P' :: 'T' :: (['2'] ++ ['H']) = "PT2H".data := by decide
    have e2 : ((digitsVal ['2'] : Int) * 60) = 120 := by decide
    rw [e1, e2] at h
    exact h
  · have h := (C2_duration_decoder ['9'] ['6'] (by decide) (by decide)
      (by decide) (by decide)).2.2.1
    have e1 : 'P' :: 'T' :: (['6'] ++ ['M']) = "PT6M".data := by decide
    have e2 : ((digitsVal ['6'] : Int)) = 6 := by decide
    rw [e1, e2] at h
    exact h

/-! ## C10 -/

/-- C10: every string that starts with `PT` and whose remainder mentions
neither `H` nor `M` (for example `"PT"` or the seconds-only `"PT30S"`)
decodes to a present duration of 0 minutes, not to "no duration". -/
theorem C10_pt_without_components (s : List Char)
    (hs : s.take 2 = ['P', 'T'])
    (hH : pyContains 'H' (s.drop 2) = false)
    (hM : pyContains 'M' (s.drop 2) = false) :
    parse_iso_duration s = some 0 := by
  unfold parse_iso_duration
  rw [if_pos hs, durStageH_no_h hH]
  exact durStageM_no_m 0 hM

/-- C10 witness: `"PT"` and `"PT30S"` decode to 0 minutes. -/
theorem C10_pt_without_components_witness :
    parse_iso_duration "PT".data = some 0
    ∧ parse_iso_duration "PT30S".data = some 0 :=
  ⟨C10_pt_without_components "PT".data (by decide) (by decide) (by decide),
   C10_pt_without_components "PT30S".data (by decide) (by decide) (by decide)⟩

/-! ## C3 -/

theorem isEmpty_eq_false_of_ne {s : String} (h : s ≠ "") :
    s.isEmpty = false := by
  rcases hb : s.isEmpty with _ | _
  · rfl
  · exact absurd ((String.isEmpty_iff s).mp hb) h

theorem normalizeMode_rail (railSub busSub : Option String) :
    normalizeMode (some "rail") railSub busSub
      = (match railSub with
         | some sub =>
           if !sub.isEmpty then
             if sub == "regionalRail" then "regional_train"
             else if sub == "suburbanRailway" then "s_bahn"
             else if sub == "interregionalRail" then "intercity"
             else if sub == "highSpeedRail" then "high_speed_rail"
             else "train"
           else "rail"
         | none => "rail") := by
  have e1 : ("rail" : String).isEmpty = false := by decide
  have e2 : pyLower "rail" = "rail" := by decide
  simp only [normalizeMode, e1, e2, Bool.false_eq_true, if_false]
  simp

theorem normalizeMode_bus (railSub busSub : Option String) :
    normalizeMode (some "bus") railSub busSub
      = (match busSub with
         | some sub =>
           if !sub.isEmpty then
             if sub == "localBus" then "bus"
             else if sub == "expressBus" then "express_bus"
             else if sub == "nightBus" then "night_bus"
             else "bus"
           else "bus"
         | none => "bus") := by
  have e1 : ("bus" : String).isEmpty = false := by decide
  have e2 : pyLower "bus" = "bus" := by decide
  simp only [normalizeMode, e1, e2, Bool.false_eq_true, if_false]
  simp

/-- C3 counterexample: the claim's closed table says an absent rail submode
maps to `train` and `cableCar` maps to `cable_car`; on the code a rail leg
with no submode keeps mode `rail`, and `cableCar` yields `cablecar`
(the guard compares the lower-cased mode with the mixed-case literal
`"cableCar"` and can never fire). -/
theorem C3_mode_table_counterexample :
    normalizeMode (some "rail") none none = "rail"
    ∧ ("rail" : String) ≠ "train"
    ∧ normalizeMode (some "cableCar") none none = "cablecar"
    ∧ ("cablecar" : String) ≠ "cable_car" := by
  refine ⟨?_, by decide, ?_, by decide⟩
  · rw [normalizeMode_rail]
  · have e1 : ("cableCar" : String).isEmpty = false := by decide
    have e2 : pyLower "cableCar" = "cablecar" := by decide
    simp only [normalizeMode, e1, e2, Bool.false_eq_true, if_false]
    simp

/-- C3 amended: the mode table as the code implements it. Rail submodes
refine only when present and non-empty (`regionalRail`→`regional_train`,
`suburbanRailway`→`s_bahn`, `interregionalRail`→`intercity`,
`highSpeedRail`→`high_speed_rail`, any other non-empty submode→`train`);
an absent or empty rail submode leaves the mode `rail` (not `train`).
Bus submodes behave as claimed (`localBus`→`bus`, `expressBus`→
`express_bus`, `nightBus`→`night_bus`, other/none→`bus`). `tram`, `metro`
and `funicular` map to themselves. `cableCar` maps to `cablecar`, not
`cable_car` (dead comparison). No primary mode maps to
`public_transport`. -/
theorem C3_mode_table_amended :
    (∀ b, normalizeMode (some "rail") (some "regionalRail") b
        = "regional_train")
    ∧ (∀ b, normalizeMode (some "rail") (some "suburbanRailway") b = "s_bahn")
    ∧ (∀ b, normalizeMode (some "rail") (some "interregionalRail") b
        = "intercity")
    ∧ (∀ b, normalizeMode (some "rail") (some "highSpeedRail") b
        = "high_speed_rail")
    ∧ (∀ sub b, sub ≠ "" → sub ≠ "regionalRail" → sub ≠ "suburbanRailway" →
        sub ≠ "interregionalRail" → sub ≠ "highSpeedRail" →
        normalizeMode (some "rail") (some sub) b = "train")
    ∧ (∀ b, normalizeMode (some "rail") none b = "rail")
    ∧ (∀ b, normalizeMode (some "rail") (some "") b = "rail")
    ∧ (∀ r, normalizeMode (some "bus") r (some "localBus") = "bus")
    ∧ (∀ r, normalizeMode (some "bus") r (some "expressBus") = "express_bus")
    ∧ (∀ r, normalizeMode (some "bus") r (some "nightBus") = "night_bus")
    ∧ (∀ sub r, sub ≠ "" → sub ≠ "localBus" → sub ≠ "expressBus" →
        sub ≠ "nightBus" → normalizeMode (some "bus") r (some sub) = "bus")
    ∧ (∀ r, normalizeMode (some "bus") r none = "bus")
    ∧ (∀ r b, normalizeMode (some "tram") r b = "tram")
    ∧ (∀ r b, normalizeMode (some "metro") r b = "metro")
    ∧ (∀ r b, normalizeMode (some "funicular") r b = "funicular")
    ∧ (∀ r b, normalizeMode (some "cableCar") r b = "cablecar")
    ∧ (∀ r b, normalizeMode none r b = "public_transport") := by
  refine ⟨?_, ?_, ?_, ?_, ?_, ?_, ?_, ?_, ?_, ?_, ?_, ?_, ?_, ?_, ?_, ?_, ?_⟩
  · intro b; rw [normalizeMode_rail]; simp; decide
  · intro b; rw [normalizeMode_rail]; simp; decide
  · intro b; rw [normalizeMode_rail]; simp; decide
  · intro b; rw [normalizeMode_rail]; simp; decide
  · intro sub b h0 h1 h2 h3 h4
    rw [normalizeMode_rail]
    simp [isEmpty_eq_false_of_ne h0, h1, h2, h3, h4]
  · intro b; rw [normalizeMode_rail]
  · intro b; rw [normalizeMode_rail]; simp; decide
  · intro r; rw [normalizeMode_bus]; simp
  · intro r; rw [normalizeMode_bus]; simp; decide
  · intro r; rw [normalizeMode_bus]; simp; decide
  · intro sub r h0 h1 h2 h3
    rw [normalizeMode_bus]
    simp [isEmpty_eq_false_of_ne h0, h1, h2, h3]
  · intro r; rw [normalizeMode_bus]
  · intro r b
    have e1 : ("tram" : String).isEmpty = false := by decide
    have e2 : pyLower "tram" = "tram" := by decide
    simp only [normalizeMode, e1, e2, Bool.false_eq_true, if_false]
    simp
  · intro r b
    have e1 : ("metro" : String).isEmpty = false := by decide
    have e2 : pyLower "metro" = "metro" := by decide
    simp only [normalizeMode, e1, e2, Bool.false_eq_true, if_false]
    simp
  · intro r b
    have e1 : ("funicular" : String).isEmpty = false := by decide
    have e2 : pyLower "funicular" = "funicular" := by decide
    simp only [normalizeMode, e1, e2, Bool.false_eq_true, if_false]
    simp
  · intro r b
    have e1 : ("cableCar" : String).isEmpty = false := by decide
    have e2 : pyLower "cableCar" = "cablecar" := by decide
    simp only [normalizeMode, e1, e2, Bool.false_eq_true, if_false]
    simp
  · intro r b; rfl

/-- C3 amended witness: the quantified rows of the amended table applied at
concrete submodes. -/
theorem C3_mode_table_amended_witness :
    normalizeMode (some "rail") (some "specialRail") none = "train"
    ∧ normalizeMode (some "bus") none (some "schoolBus") = "bus" := by
  constructor
  · exact C3_mode_table_amended.2.2.2.2.1 "specialRail" none (by decide)
      (by decide) (by decide) (by decide) (by decide)
  · exact C3_mode_table_amended.2.2.2.2.2.2.2.2.2.2.1 "schoolBus" none
      (by decide) (by decide) (by decide) (by decide)

/-! ## Structure of a successfully assembled trip -/

theorem mkTrip_eq_some {legs : List Leg} {dur : Int}
    {dep arr : Option Int} {trans : Int} {t : Trip}
    (h : mkTrip legs dur dep arr trans = some t) :
    ∃ d a, dep = some d ∧ arr = some a ∧
      t = { legs := legs, total_duration_minutes := dur,
            departure_time := d, arrival_time := a, transfers := trans } := by
  cases dep with
  | none => simp [mkTrip] at h
  | some d =>
    cases arr with
    | none => simp [mkTrip] at h
    | some a =>
      refine ⟨d, a, rfl, rfl, ?_⟩
      simp only [mkTrip, Option.some_inj] at h
      exact h.symm

theorem assembleTrip_eq_some {legs : List Leg} {t : Trip}
    (h : assembleTrip legs = some t) :
    t.legs = legs
    ∧ (∃ d a, legs.findSome? (fun l => l.departure_time) = some d
        ∧ legs.reverse.findSome? (fun l => l.arrival_time) = some a
        ∧ t.departure_time = d ∧ t.arrival_time = a
        ∧ t.total_duration_minutes = Int.tdiv (a - d) 60)
    ∧ t.transfers = max 0 (((legs.filter (fun l =>
        !(l.mode == "walk" || l.mode == "walking"))).length : Int) - 1) := by
  cases legs with
  | nil => simp [assembleTrip] at h
  | cons l0 rest =>
    simp only [assembleTrip] at h
    obtain ⟨d, a, hdep', harr', ht⟩ := mkTrip_eq_some h
    rcases hfd : (l0 :: rest).findSome? (fun l => l.departure_time)
        with _ | d0
    · exfalso
      rw [hfd] at hdep'
      simp only at hdep'
      have h0 : l0.departure_time = none :=
        (List.findSome?_eq_none_iff.mp hfd) l0 (List.mem_cons_self l0 rest)
      rw [h0] at hdep'
      cases hdep'
    · rcases hfa : ((l0 :: rest).reverse.findSome? (fun l => l.arrival_time))
          with _ | a0
      · exfalso
        rw [hfa] at harr'
        simp only at harr'
        rcases hrev : (l0 :: rest).reverse with _ | ⟨x, xs⟩
        · exact absurd hrev (by simp)
        · have hx : x.arrival_time = none := by
            apply List.findSome?_eq_none_iff.mp hfa
            rw [hrev]
            exact List.mem_cons_self x xs
          rw [← List.head?_reverse, hrev] at harr'
          simp only [List.head?_cons, Option.some_bind] at harr'
          rw [hx] at harr'
          cases harr'
      · rw [hfd] at hdep'
        rw [hfa] at harr'
        simp only [Option.some_inj] at hdep' harr'
        subst hdep'
        subst harr'
        rw [hfd, hfa] at ht
        subst ht
        refine ⟨rfl, ⟨d0, a0, hfd, hfa, rfl, rfl, rfl⟩, rfl⟩

/-! ## C1 -/

/-- The `"Unknown"` placeholder location. -/
def locUnknown : Location := { name := "Unknown" }

/-- A decodable transfer-leg element carrying only a walking transfer with a
5-minute duration: it decodes to a leg with no departure and no arrival
instant. -/
def c1LegElem : LegElem :=
  .transfer none { transferTypeText := some "walk",
                   durationText := some "PT5M" }

/-- A trip-result element whose single leg is `c1LegElem`. -/
def c1TripElem : TripResultElem := { legs := [c1LegElem] }

/-- C1 counterexample: a trip-result element with exactly one successfully
decoded leg, where no leg carries a departure or arrival instant, produces
no trip at all — the claim says a Trip is still emitted with absent
times. -/
theorem C1_absent_times_counterexample :
    (c1TripElem.legs.filterMap parse_leg).length = 1
    ∧ parse_trip c1TripElem = none := by
  constructor
  · decide
  · decide

/-- C1 amended: the assembler emits a Trip exactly when the decoded leg
list is non-empty, some leg carries a departure instant and some leg
carries an arrival instant. When no leg carries one, the fallback to the
first leg's own departure (or last leg's own arrival) necessarily yields an
absent value, the `Trip` model's required `departure_time`/`arrival_time`
fields reject it, and the trip is discarded instead of being emitted with
absent times. -/
theorem C1_absent_times_amended (legs : List Leg) :
    (assembleTrip legs).isSome = true ↔
      legs ≠ []
      ∧ (∃ l ∈ legs, l.departure_time ≠ none)
      ∧ (∃ l ∈ legs, l.arrival_time ≠ none) := by
  constructor
  · intro h
    obtain ⟨t, ht⟩ := Option.isSome_iff_exists.mp h
    obtain ⟨hl, ⟨d, a, hfd, hfa, _⟩, _⟩ := assembleTrip_eq_some ht
    refine ⟨?_, ?_, ?_⟩
    · intro hnil
      subst hnil
      simp [assembleTrip] at ht
    · obtain ⟨l, hm, hf⟩ := List.exists_of_findSome?_eq_some hfd
      exact ⟨l, hm, by simp [hf]⟩
    · obtain ⟨l, hm, hf⟩ := List.exists_of_findSome?_eq_some hfa
      exact ⟨l, List.mem_reverse.mp hm, by simp [hf]⟩
  · rintro ⟨hne, ⟨ld, hld, hd⟩, ⟨la, hla, ha⟩⟩
    have hfd : legs.findSome? (fun l => l.departure_time) ≠ none := by
      intro hn
      exact hd (List.findSome?_eq_none_iff.mp hn ld hld)
    have hfa : legs.reverse.findSome? (fun l => l.arrival_time) ≠ none := by
      intro hn
      exact ha (List.findSome?_eq_none_iff.mp hn la (List.mem_reverse.mpr hla))
    obtain ⟨d0, hd0⟩ := Option.ne_none_iff_exists'.mp hfd
    obtain ⟨a0, ha0⟩ := Option.ne_none_iff_exists'.mp hfa
    cases legs with
    | nil => exact absurd rfl hne
    | cons l0 rest =>
      simp only [assembleTrip]
      rw [hd0, ha0]
      simp [mkTrip]

/-! ## C4 -/

/-- The C4 scenario's first leg: timed, no departure/arrival, no duration. -/
def c4Leg1 (m : String) : Leg :=
  { mode := m, origin := locUnknown, destination := locUnknown }

/-- The C4 scenario's second leg: timed, 09:00 → 09:20 (seconds of day). -/
def c4Leg2 (m : String) : Leg :=
  { mode := m, origin := locUnknown, destination := locUnknown,
    departure_time := some 32400, arrival_time := some 33600 }

/-- The C4 scenario's third leg: walking, 5 minutes. -/
def c4Leg3 : Leg :=
  { mode := "walking", origin := locUnknown, destination := locUnknown,
    duration_minutes := some 5 }

/-- The C4 scenario's fourth leg: timed, 09:30 → 10:00. -/
def c4Leg4 (m : String) : Leg :=
  { mode := m, origin := locUnknown, destination := locUnknown,
    departure_time := some 34200, arrival_time := some 36000 }

/-- C4 counterexample: on the claim's leg sequence the assembler computes
transfer count 2, not 1 — all three timed legs (including the first one,
which has no times but a non-walking mode) count toward
`max(0, non-walking − 1)`. -/
theorem C4_scenario_counterexample :
    (assembleTrip
        [c4Leg1 "train", c4Leg2 "train", c4Leg3, c4Leg4 "train"]).map
        Trip.transfers = some 2
    ∧ (2 : Int) ≠ 1 := by
  constructor
  · decide
  · decide

/-- C4 amended: for the claim's leg sequence (any non-walking modes on the
three timed legs) the assembler produces departure 09:00, arrival 10:00,
total duration 60 minutes — and transfer count 2. -/
theorem C4_scenario_amended (m1 m2 m4 : String)
    (h1 : (m1 == "walk" || m1 == "walking") = false)
    (h2 : (m2 == "walk" || m2 == "walking") = false)
    (h4 : (m4 == "walk" || m4 == "walking") = false) :
    assembleTrip [c4Leg1 m1, c4Leg2 m2, c4Leg3, c4Leg4 m4]
      = some { legs := [c4Leg1 m1, c4Leg2 m2, c4Leg3, c4Leg4 m4],
               total_duration_minutes := 60,
               departure_time := 32400,
               arrival_time := 36000,
               transfers := 2 } := by
  simp only [assembleTrip, mkTrip, List.findSome?, List.reverse,
    List.filter, c4Leg1, c4Leg2, c4Leg3, c4Leg4, h1, h2, h4]
  norm_num
  decide

/-- C4 amended witness: the amended scenario at concrete modes. -/
theorem C4_scenario_amended_witness :
    assembleTrip [c4Leg1 "train", c4Leg2 "s_bahn", c4Leg3, c4Leg4 "bus"]
      = some { legs := [c4Leg1 "train", c4Leg2 "s_bahn", c4Leg3,
                        c4Leg4 "bus"],
               total_duration_minutes := 60,
               departure_time := 32400,
               arrival_time := 36000,
               transfers := 2 } :=
  C4_scenario_amended "train" "s_bahn" "bus" (by decide) (by decide)
    (by decide)

/-! ## C5 -/

/-- C5: every emitted trip's transfer count is
`max(0, (number of legs whose mode is neither "walk" nor "walking")) − 1)`;
in particular, if a trip were assembled from a single walking leg, its
transfer count would be 0. -/
theorem C5_transfer_count :
    (∀ legs t, assembleTrip legs = some t →
        t.transfers = max 0 (((t.legs.filter (fun l =>
          !(l.mode == "walk" || l.mode == "walking"))).length : Int) - 1))
    ∧ (∀ w t, (w.mode = "walk" ∨ w.mode = "walking") →
        assembleTrip [w] = some t → t.transfers = 0) := by
  constructor
  · intro legs t h
    obtain ⟨hl, _, ht⟩ := assembleTrip_eq_some h
    rw [hl]
    exact ht
  · intro w t hw h
    obtain ⟨hl, _, ht⟩ := assembleTrip_eq_some h
    rw [ht]
    have hfil : ([w].filter (fun l =>
        !(l.mode == "walk" || l.mode == "walking"))) = [] := by
      rcases hw with hw | hw <;> simp [List.filter, hw]
    rw [hfil]
    decide

/-- A single timed train leg, 09:00 → 09:20, and the trip it assembles
into. -/
def legTrain : Leg :=
  { mode := "train", origin := locUnknown, destination := locUnknown,
    departure_time := some 32400, arrival_time := some 33600 }

/-- The trip assembled from `[legTrain]`. -/
def tripTrain : Trip :=
  { legs := [legTrain], total_duration_minutes := 20,
    departure_time := 32400, arrival_time := 33600, transfers := 0 }

/-- C5 witness: the transfer-count invariant at a concrete assembled
trip. -/
theorem C5_transfer_count_witness :
    assembleTrip [legTrain] = some tripTrain
    ∧ tripTrain.transfers = max 0 (((tripTrain.legs.filter (fun l =>
        !(l.mode == "walk" || l.mode == "walking"))).length : Int) - 1) :=
  ⟨by decide, C5_transfer_count.1 [legTrain] tripTrain (by decide)⟩

/-! ## C8 -/

/-- A timed leg whose arrival (09:00) precedes its departure (10:00). -/
def c8Leg : Leg :=
  { mode := "train", origin := locUnknown, destination := locUnknown,
    departure_time := some 36000, arrival_time := some 32400 }

/-- C8 counterexample: a trip assembled from a leg arriving before it
departs is emitted with total duration −60 minutes; nothing in the code or
the `Trip` model enforces the claimed `≥ 0` invariant. -/
theorem C8_duration_counterexample :
    (assembleTrip [c8Leg]).map Trip.total_duration_minutes = some (-60)
    ∧ ¬(0 ≤ (-60 : Int)) := by
  constructor
  · decide
  · decide

/-- C8 amended: every emitted trip's total duration is the
truncated-toward-zero minute difference between its (required) arrival and
departure instants — the per-leg summation fallback never produces an
emitted trip, because when it runs the required instants are absent and
construction fails. The duration is therefore ≥ 0 exactly when the found
arrival does not precede the found departure, and can be negative
otherwise. -/
theorem C8_duration_amended (legs : List Leg) (t : Trip)
    (h : assembleTrip legs = some t) :
    t.total_duration_minutes
        = Int.tdiv (t.arrival_time - t.departure_time) 60
    ∧ (t.departure_time ≤ t.arrival_time → 0 ≤ t.total_duration_minutes) := by
  obtain ⟨_, ⟨d, a, _, _, hd, ha, hdur⟩, _⟩ := assembleTrip_eq_some h
  constructor
  · rw [hdur, hd, ha]
  · intro hle
    rw [hdur]
    rw [hd, ha] at hle
    exact Int.tdiv_nonneg (by omega) (by omega)

/-- C8 amended witness: the duration equation at a concrete assembled
trip. -/
theorem C8_duration_amended_witness :
    tripTrain.total_duration_minutes
        = Int.tdiv (tripTrain.arrival_time - tripTrain.departure_time) 60
    ∧ (tripTrain.departure_time ≤ tripTrain.arrival_time →
        0 ≤ tripTrain.total_duration_minutes) :=
  C8_duration_amended [legTrain] tripTrain (by decide)

/-! ## C6 -/

/-- C6: for every malformed input document, both entry points return an
envelope with `success = false`, a non-empty human-readable error message,
and an empty result collection — modelled without exceptions by
construction. -/
theorem C6_malformed_document (e : String) :
    (parse_trip_response (.malformed e)).success = false
    ∧ (parse_trip_response (.malformed e)).error_message
        = some ("Failed to parse trip response: " ++ e)
    ∧ 0 < ("Failed to parse trip response: " ++ e).length
    ∧ (parse_trip_response (.malformed e)).trips = []
    ∧ (parse_location_response (.malformed e)).success = false
    ∧ (parse_location_response (.malformed e)).error_message
        = some ("Failed to parse location response: " ++ e)
    ∧ 0 < ("Failed to parse location response: " ++ e).length
    ∧ (parse_location_response (.malformed e)).locations = [] := by
  refine ⟨rfl, rfl, ?_, rfl, rfl, rfl, ?_, rfl⟩
  · have h : 0 < ("Failed to parse trip response: " : String).length := by
      decide
    rw [String.length_append]
    omega
  · have h : 0 < ("Failed to parse location response: " : String).length := by
      decide
    rw [String.length_append]
    omega

/-! ## C7 -/

theorem length_filterMap_of_isSome {α β : Type} (f : α → Option β) :
    ∀ l : List α, (∀ x ∈ l, (f x).isSome = true) →
      (l.filterMap f).length = l.length
  | [], _ => rfl
  | x :: xs, h => by
    have hx := h x (List.mem_cons_self x xs)
    obtain ⟨y, hy⟩ := Option.isSome_iff_exists.mp hx
    rw [List.filterMap_cons, hy]
    simp only [List.length_cons]
    rw [length_filterMap_of_isSome f xs
      (fun a ha => h a (List.mem_cons_of_mem x ha))]

/-- C7: in a well-formed document with one undecodable result element among
otherwise decodable ones, both entry points still return `success = true`
and exactly the other N−1 results; one fragment's failure neither aborts
its siblings nor flips the envelope's success flag. -/
theorem C7_single_fragment_failure :
    (∀ (pre post : List TripResultElem) (bad : TripResultElem),
      (∀ r ∈ pre, (parse_trip r).isSome = true) →
      (∀ r ∈ post, (parse_trip r).isSome = true) →
      parse_trip bad = none →
      (parse_trip_response (.parsed (pre ++ bad :: post))).success = true
      ∧ (parse_trip_response (.parsed (pre ++ bad :: post))).trips.length
          = pre.length + post.length)
    ∧ (∀ (pre post : List PlaceResultElem) (bad : PlaceResultElem),
      (∀ r ∈ pre, (parse_place_result r).isSome = true) →
      (∀ r ∈ post, (parse_place_result r).isSome = true) →
      parse_place_result bad = none →
      (parse_location_response (.parsed (pre ++ bad :: post))).success = true
      ∧ (parse_location_response
          (.parsed (pre ++ bad :: post))).locations.length
          = pre.length + post.length) := by
  constructor
  · intro pre post bad hpre hpost hbad
    refine ⟨rfl, ?_⟩
    show ((pre ++ bad :: post).filterMap parse_trip).length = _
    rw [List.filterMap_append, List.filterMap_cons, hbad]
    rw [List.length_append, length_filterMap_of_isSome _ pre hpre,
        length_filterMap_of_isSome _ post hpost]
  · intro pre post bad hpre hpost hbad
    refine ⟨rfl, ?_⟩
    show ((pre ++ bad :: post).filterMap parse_place_result).length = _
    rw [List.filterMap_append, List.filterMap_cons, hbad]
    rw [List.length_append, length_filterMap_of_isSome _ pre hpre,
        length_filterMap_of_isSome _ post hpost]

/-- A timed-leg element with instants 09:00 and 10:00, fully decodable. -/
def goodTimedLeg : LegElem :=
  .timed { board := some { estimatedTimeText := some "32400" },
           alight := some { estimatedTimeText := some "36000" } }

/-- A decodable trip-result element. -/
def goodTripElem : TripResultElem := { legs := [goodTimedLeg] }

/-- A trip-result element with no legs: undecodable. -/
def badTripElem : TripResultElem := { legs := [] }

/-- A decodable place-result element. -/
def goodPlaceElem : PlaceResultElem := { place := some { nameText := some "Bern" } }

/-- A place-result element with no place child: undecodable. -/
def badPlaceElem : PlaceResultElem := { place := none }

/-- C7 witness: a two-element document with one failing element yields
`success = true` and one result, for both entry points. -/
theorem C7_single_fragment_failure_witness :
    (parse_trip_response
        (.parsed ([goodTripElem] ++ badTripElem :: []))).success = true
    ∧ (parse_trip_response
        (.parsed ([goodTripElem] ++ badTripElem :: []))).trips.length = 1
    ∧ (parse_location_response
        (.parsed ([goodPlaceElem] ++ badPlaceElem :: []))).success = true
    ∧ (parse_location_response
        (.parsed ([goodPlaceElem] ++ badPlaceElem :: []))).locations.length
        = 1 := by
  have h1 := C7_single_fragment_failure.1 [goodTripElem] [] badTripElem
    (by decide) (by decide) (by decide)
  have h2 := C7_single_fragment_failure.2 [goodPlaceElem] [] badPlaceElem
    (by decide) (by decide) (by decide)
  exact ⟨h1.1, h1.2, h2.1, h2.2⟩

/-! ## C9 -/

/-- A place element carrying only a resolvable name. -/
def c9Place : PlaceElem := { nameText := some "Bern" }

/-- A place-result element whose probability text parses to the
out-of-range value 1.5. -/
def c9Cex : PlaceResultElem :=
  { place := some c9Place, probabilityText := some "1.5" }

/-- C9 counterexample: a place result whose match-confidence text holds the
out-of-range value `1.5` is dropped entirely (`float()` succeeds, the
pydantic `ge=0, le=1` bound then raises at `Location(...)`, and only the
outer fragment-level handler catches it) — the claim says a Location with
absent confidence is still produced. -/
theorem C9_confidence_counterexample :
    placeName c9Place = some "Bern"
    ∧ pyFloat "1.5" = some (3 / 2)
    ∧ ¬((0 : ℚ) ≤ 3 / 2 ∧ (3 / 2 : ℚ) ≤ 1)
    ∧ parse_place_result c9Cex = none := by
  have hpn : placeName c9Place = some "Bern" := by decide
  have h1 : stripWs "1.5".data = ['1', '.', '5'] := by decide
  have h2 : signSplit ['1', '.', '5'] = (false, ['1', '.', '5']) := by decide
  have h3 : splitOnChar '.' ['1', '.', '5'] = [['1'], ['5']] := by decide
  have hcond : (!((['1'] ++ ['5'] : List Char)).isEmpty
      && ((['1'] ++ ['5'] : List Char)).all Char.isDigit) = true := by decide
  have d1 : digitsVal ['1'] = 1 := by decide
  have d5 : digitsVal ['5'] = 5 := by decide
  have hv : pyFloat "1.5" = some (3 / 2) := by
    simp only [pyFloat, pyFloatChars, h1, h2, h3, hcond, d1, d5,
      if_true, List.length_singleton]
    norm_num
  refine ⟨hpn, hv, by norm_num, ?_⟩
  simp only [parse_place_result, c9Cex, hpn, Option.some_bind, hv,
    mkLocation]
  rw [if_neg (by norm_num)]

/-- C9 amended: for a place result with a place child and a resolvable
name, an unparseable (malformed) or absent confidence degrades to an absent
probability and the Location is still produced, with id and coordinates as
extracted (themselves absent when missing); but a parseable out-of-range
confidence drops the whole fragment. -/
theorem C9_degradation_amended (pr : PlaceResultElem) (pl : PlaceElem)
    (nm : String) (hpl : pr.place = some pl)
    (hnm : placeName pl = some nm) :
    (pr.probabilityText.bind pyFloat = none →
      parse_place_result pr
        = some { id := pl.stopPlaceRefText, name := nm,
                 coordinates := placeCoords pl, type := "stop",
                 probability := none })
    ∧ (∀ p, pr.probabilityText.bind pyFloat = some p →
        ¬(0 ≤ p ∧ p ≤ 1) → parse_place_result pr = none) := by
  constructor
  · intro hnone
    simp only [parse_place_result, hpl, hnm, hnone, mkLocation]
  · intro p hp hout
    simp only [parse_place_result, hpl, hnm, hp, mkLocation]
    rw [if_neg hout]

/-- A place-result element whose probability text is unparseable. -/
def c9WElem : PlaceResultElem :=
  { place := some c9Place, probabilityText := some "abc" }

/-- C9 amended witness: a malformed confidence still yields a Location with
absent confidence. -/
theorem C9_degradation_amended_witness :
    parse_place_result c9WElem
      = some { id := c9Place.stopPlaceRefText, name := "Bern",
               coordinates := placeCoords c9Place, type := "stop",
               probability := none } :=
  (C9_degradation_amended c9WElem c9Place "Bern" rfl (by decide)).1
    (by decide)
